import Mathlib

/-!
Verification of the glumpy shader module (`glumpy/gloo/shader.py`).

The Python module is shallowly embedded below.  Machine strings are
modelled as Lean `String` / `List Char`; the regex-driven scanning done by
`re.sub` / `re.finditer` in the source is modelled by explicit left-to-right
character scanners that reproduce the regex engine's leftmost-match,
first-alternative-wins, greedy-with-backtracking semantics for the concrete
patterns appearing in the source.  Python exceptions (`KeyError`,
`RuntimeError`, `ValueError`) are modelled with `Except` over `PyError`.
Recursive scanners use an explicit fuel argument; every recursive call
strictly shortens the scanned list while consuming one unit of fuel, so fuel
`length + 1` is always sufficient.
-/

namespace Glumpy

/-- Python regex `\w` on the ASCII range: letters, digits and underscore. -/
def isPyWord (c : Char) : Bool :=
  c.isAlphanum || c = '_'

/-- Python regex `\s` on the ASCII range: space, tab, newline, carriage
return, vertical tab and form feed. -/
def isPySpace (c : Char) : Bool :=
  c = ' ' || c = '\t' || c = '\n' || c = '\r' || c = '\x0b' || c = '\x0c'

/-- The character class `[\w,\[\] ]` used by the name-list part of the
declaration regexes in `Shader.uniforms` / `Shader.attributes`. -/
def isNameClass (c : Char) : Bool :=
  isPyWord c || c = ',' || c = '[' || c = ']' || c = ' '

/-- A character matched by `[^\r\n]` (the body of a `//` line comment). -/
def isLineChar (c : Char) : Bool :=
  c != '\r' && c != '\n'

/-- Python `int` applied to a nonempty string of ASCII digits. -/
def natOfDigits (ds : List Char) : Nat :=
  ds.foldl (fun a c => 10 * a + (c.toNat - '0'.toNat)) 0

/-- The OpenGL type enumeration values appearing in `Shader._gtypes`. -/
inductive GType where
  | GL_FLOAT | GL_FLOAT_VEC2 | GL_FLOAT_VEC3 | GL_FLOAT_VEC4
  | GL_INT | GL_INT_VEC2 | GL_INT_VEC3 | GL_INT_VEC4
  | GL_BOOL | GL_BOOL_VEC2 | GL_BOOL_VEC3 | GL_BOOL_VEC4
  | GL_FLOAT_MAT2 | GL_FLOAT_MAT3 | GL_FLOAT_MAT4
  | GL_SAMPLER_1D | GL_SAMPLER_2D
deriving DecidableEq, Repr

/-- The `Shader._gtypes` dictionary, in source order (shader.py lines
19-37).  Python dict lookup on a literal dict with distinct keys is the
first (only) matching entry, i.e. `List.lookup`. -/
def gtypesList : List (String × GType) :=
  [("float", .GL_FLOAT), ("vec2", .GL_FLOAT_VEC2), ("vec3", .GL_FLOAT_VEC3),
   ("vec4", .GL_FLOAT_VEC4), ("int", .GL_INT), ("ivec2", .GL_INT_VEC2),
   ("ivec3", .GL_INT_VEC3), ("ivec4", .GL_INT_VEC4), ("bool", .GL_BOOL),
   ("bvec2", .GL_BOOL_VEC2), ("bvec3", .GL_BOOL_VEC3), ("bvec4", .GL_BOOL_VEC4),
   ("mat2", .GL_FLOAT_MAT2), ("mat3", .GL_FLOAT_MAT3), ("mat4", .GL_FLOAT_MAT4),
   ("sampler1D", .GL_SAMPLER_1D), ("sampler2D", .GL_SAMPLER_2D)]

/-- Python exceptions raised by the module: `KeyError` from the
`_gtypes[...]` lookup (the spec calls this `UnknownTypeError`),
`RuntimeError` with its message (the spec's `InvalidArraySizeError`,
`NoSourceError`, `HandleAllocationError`, `CompilationError`), and
`ValueError` (the spec's `UnrecognizedDiagnosticFormatError`). -/
inductive PyError where
  | keyError (key : String)
  | runtimeError (msg : String)
  | valueError (msg : String)
deriving DecidableEq, Repr

/-- Non-greedy search for the closing quote `q`: the regex fragment
`.*?q` under `re.DOTALL`.  Returns the content before the first `q` and
the remainder after it. -/
def findClose (q : Char) : List Char → Option (List Char × List Char)
  | [] => none
  | c :: rest =>
    if c = q then some ([], rest)
    else
      match findClose q rest with
      | some (pre, post) => some (c :: pre, post)
      | none => none

/-- Non-greedy search for the first block-comment terminator: the regex
fragment `.*?\*/` under `re.DOTALL`.  Returns the comment body before the
first occurrence of the two characters star-slash and the remainder after
it. -/
def findBlockEnd : List Char → Option (List Char × List Char)
  | [] => none
  | c :: rest =>
    if c = '*' && rest.head? = some '/' then some ([], rest.tail)
    else
      match findBlockEnd rest with
      | some (pre, post) => some (c :: pre, post)
      | none => none

/-- One fuelled step-scan of `Shader._remove_comments` (shader.py lines
182-198).  The Python pattern
`(".*?"|\x27.*?\x27)|(/\*.*?\*/|//[^\r\n]*$)` with `re.MULTILINE|re.DOTALL`
is applied by `re.sub`, keeping group 1 (quoted strings) and deleting
group 2 (comments).  `re.sub` scans left to right; at each position the
alternatives are tried in order, so this scanner: keeps a quoted literal
whose closing quote exists, deletes a terminated block comment, deletes a
`//` comment running to an end of line (the `$` of `re.MULTILINE`, which
matches at end of input or before a newline, but not before a lone
carriage return), and otherwise copies one character and moves on. -/
def stripGo : Nat → List Char → List Char
  | 0, _ => []
  | _ + 1, [] => []
  | f + 1, c :: rest =>
    if c = '"' || c = '\'' then
      match findClose c rest with
      | some (lit, rest') => c :: (lit ++ c :: stripGo f rest')
      | none => c :: stripGo f rest
    else if c = '/' then
      if rest.head? = some '*' then
        match findBlockEnd rest.tail with
        | some (_, rest') => stripGo f rest'
        | none => c :: stripGo f rest
      else if rest.head? = some '/' then
        let rest' := rest.tail.dropWhile isLineChar
        if rest' = [] || rest'.head? = some '\n' then stripGo f rest'
        else c :: stripGo f rest
      else c :: stripGo f rest
    else c :: stripGo f rest

/-- `Shader._remove_comments` on a character list. -/
def stripCommentsL (l : List Char) : List Char :=
  stripGo (l.length + 1) l

/-- `Shader._remove_comments` (shader.py lines 182-198). -/
def remove_comments (s : String) : String :=
  String.mk (stripCommentsL s.toList)

/-- One attempt of the declaration regex
`\s*KEYWORD\s+(?P<type>\w+)\s+(?P<names>[\w,\[\] ]+);` (re.VERBOSE) at the
current position, as used by `Shader.uniforms` / `Shader.attributes`.
Greedy runs followed by a token that cannot start the run make the engine
deterministic here, except for one case: when the name-list would be empty
the engine backtracks the second `\s+`, donating a trailing space to the
name class (which contains a space).  Returns the captured type, the
captured name-list and the remainder after the semicolon. -/
def matchDecl (kw : List Char) (s : List Char) : Option (List Char × List Char × List Char) :=
  let s1 := s.dropWhile isPySpace
  if s1.take kw.length = kw then
    let s2 := s1.drop kw.length
    if s2.takeWhile isPySpace = [] then none
    else
      let s3 := s2.dropWhile isPySpace
      let ty := s3.takeWhile isPyWord
      if ty = [] then none
      else
        let s4 := s3.dropWhile isPyWord
        let w2 := s4.takeWhile isPySpace
        if w2 = [] then none
        else
          let q0 := s4.dropWhile isPySpace
          let nm := q0.takeWhile isNameClass
          if nm = [] then
            match q0 with
            | ';' :: rem =>
              if 2 ≤ w2.length && w2.getLast? = some ' ' then some (ty, [' '], rem)
              else none
            | _ => none
          else
            match q0.dropWhile isNameClass with
            | ';' :: rem => some (ty, nm, rem)
            | _ => none
  else none

/-- Fuelled `re.finditer` loop for the declaration regex: try a match at
every position, emit it and continue after its end, else advance one
character.  Each step strictly shortens the list, so fuel `length + 1`
never runs out. -/
def findDeclsGo (kw : List Char) : Nat → List Char → List (List Char × List Char)
  | 0, _ => []
  | _ + 1, [] => []
  | f + 1, c :: rest =>
    match matchDecl kw (c :: rest) with
    | some (ty, nm, rem) => (ty, nm) :: findDeclsGo kw f rem
    | none => findDeclsGo kw f rest

/-- All matches of the declaration regex, in source-appearance order. -/
def findDecls (kw : List Char) (l : List Char) : List (List Char × List Char) :=
  findDeclsGo kw (l.length + 1) l

/-- One attempt of the name regex
`(?P<name>\w+)\s*(\[(?P<size>\d+)\])?` (re.VERBOSE) at the current
position.  The optional bracket group is tried after the greedy `\s*`; if
it fails the match still succeeds with no size, ending after the
whitespace. -/
def matchName (s : List Char) : Option (List Char × Option (List Char) × List Char) :=
  let nm := s.takeWhile isPyWord
  if nm = [] then none
  else
    let s3 := (s.dropWhile isPyWord).dropWhile isPySpace
    match s3 with
    | '[' :: r3 =>
      let ds := r3.takeWhile Char.isDigit
      let r4 := r3.dropWhile Char.isDigit
      if ds ≠ [] ∧ r4.head? = some ']' then some (nm, some ds, r4.tail)
      else some (nm, none, s3)
    | _ => some (nm, none, s3)

/-- Fuelled `re.finditer` loop for the name regex over a captured
name-list. -/
def findNamesGo : Nat → List Char → List (List Char × Option (List Char))
  | 0, _ => []
  | _ + 1, [] => []
  | f + 1, c :: rest =>
    match matchName (c :: rest) with
    | some (nm, sz, rem) => (nm, sz) :: findNamesGo f rem
    | none => findNamesGo f rest

/-- All matches of the name regex, left to right. -/
def findNames (l : List Char) : List (List Char × Option (List Char)) :=
  findNamesGo (l.length + 1) l

/-- The array expansion loop `for i in range(size): ... '%s[%d]' % (name,i)`
(shader.py lines 232-234). -/
def expandArray (name : String) (g : GType) (size : Nat) : List (String × GType) :=
  (List.range size).map (fun i => (name ++ "[" ++ toString i ++ "]", g))

/-- Processing of one name match (shader.py lines 224-234): no size emits
one entry; size `0` raises `RuntimeError`; size `N` emits the expansion. -/
def processName (g : GType) (acc : List (String × GType)) (p : List Char × Option (List Char)) :
    Except PyError (List (String × GType)) :=
  match p.2 with
  | none => .ok (acc ++ [(String.mk p.1, g)])
  | some ds =>
    let size := natOfDigits ds
    if size = 0 then .error (.runtimeError "Size of uniform array cannot be zero")
    else .ok (acc ++ expandArray (String.mk p.1) g size)

/-- Processing of one declaration match (shader.py lines 220-234): the
type token is looked up in `_gtypes` first — an absent key is a Python
`KeyError` — and then every name match is processed in order. -/
def processDecl (acc : List (String × GType)) (p : List Char × List Char) :
    Except PyError (List (String × GType)) :=
  match List.lookup (String.mk p.1) gtypesList with
  | none => .error (.keyError (String.mk p.1))
  | some g => (findNames p.2).foldlM (processName g) acc

/-- The common body of `Shader.uniforms` (shader.py lines 201-236) and
`Shader.attributes` (lines 239-275); the two property bodies are
line-for-line identical up to the keyword in the declaration regex,
including the error message of the size check (lines 231 and 270). -/
def extractDeclarations (kw : String) (code : String) :
    Except PyError (List (String × GType)) :=
  (findDecls kw.toList (stripCommentsL code.toList)).foldlM processDecl []

/-- `Shader.uniforms` as a function of the shader source text. -/
def uniformsFrom (code : String) : Except PyError (List (String × GType)) :=
  extractDeclarations "uniform" code

/-- `Shader.attributes` as a function of the shader source text. -/
def attributesFrom (code : String) : Except PyError (List (String × GType)) :=
  extractDeclarations "attribute" code

/-- The Nvidia diagnostic regex `(\d+)\((\d+)\):\s(.*)` applied with
`re.match` (anchored at the start; without `re.DOTALL` the trailing `.*`
stops at the first newline); returns `int(group 2)` and group 3
(shader.py lines 132-135). -/
def matchNvidia (l : List Char) : Option (Nat × String) :=
  let d1 := l.takeWhile Char.isDigit
  if d1 = [] then none
  else
    match l.dropWhile Char.isDigit with
    | '(' :: r2 =>
      let d2 := r2.takeWhile Char.isDigit
      if d2 = [] then none
      else
        match r2.dropWhile Char.isDigit with
        | ')' :: ':' :: c :: r5 =>
          if isPySpace c then
            some (natOfDigits d2, String.mk (r5.takeWhile (fun ch => ch != '\n')))
          else none
        | _ => none
    | _ => none

/-- The ATI / Intel diagnostic regex `ERROR:\s(\d+):(\d+):\s(.*)` applied
with `re.match`; returns `int(group 2)` and group 3 (shader.py lines
137-140). -/
def matchATI (l : List Char) : Option (Nat × String) :=
  if l.take 6 = "ERROR:".toList then
    match l.drop 6 with
    | c :: r1 =>
      if isPySpace c then
        let d1 := r1.takeWhile Char.isDigit
        if d1 = [] then none
        else
          match r1.dropWhile Char.isDigit with
          | ':' :: rB =>
            let d2 := rB.takeWhile Char.isDigit
            if d2 = [] then none
            else
              match rB.dropWhile Char.isDigit with
              | ':' :: c2 :: rE =>
                if isPySpace c2 then
                  some (natOfDigits d2, String.mk (rE.takeWhile (fun ch => ch != '\n')))
                else none
              | _ => none
          | _ => none
      else none
    | [] => none
  else none

/-- The Nouveau diagnostic regex `(\d+):(\d+)\((\d+)\):\s(.*)` applied
with `re.match`; returns `int(group 2)` and group 4 (shader.py lines
142-145). -/
def matchNouveau (l : List Char) : Option (Nat × String) :=
  let d1 := l.takeWhile Char.isDigit
  if d1 = [] then none
  else
    match l.dropWhile Char.isDigit with
    | ':' :: r2 =>
      let d2 := r2.takeWhile Char.isDigit
      if d2 = [] then none
      else
        match r2.dropWhile Char.isDigit with
        | '(' :: r3 =>
          let d3 := r3.takeWhile Char.isDigit
          if d3 = [] then none
          else
            match r3.dropWhile Char.isDigit with
            | ')' :: ':' :: c :: r5 =>
              if isPySpace c then
                some (natOfDigits d2, String.mk (r5.takeWhile (fun ch => ch != '\n')))
              else none
            | _ => none
        | _ => none
    | _ => none

/-- `Shader._parse_error` (shader.py lines 121-147): the three vendor
formats are tried in order, the first match wins, and no match raises
`ValueError` with the message below. -/
def parse_error (error : String) : Except PyError (Nat × String) :=
  match matchNvidia error.toList with
  | some r => .ok r
  | none =>
    match matchATI error.toList with
    | some r => .ok r
    | none =>
      match matchNouveau error.toList with
      | some r => .ok r
      | none => .error (.valueError "Unknown GLSL error format")

/-- Python `str.split` on a single newline: splits at every occurrence,
keeping empty pieces, and yields one (empty) piece for the empty string. -/
def splitLines : List Char → List (List Char)
  | [] => [[]]
  | c :: rest =>
    if c = '\n' then [] :: splitLines rest
    else
      match splitLines rest with
      | h :: t => (c :: h) :: t
      | [] => [[c]]

/-- Python list slicing `l[a:b]` (step 1): negative bounds count from the
end, then both bounds are clamped to `[0, len]`. -/
def pySlice {α : Type} (l : List α) (a b : Int) : List α :=
  let n : Int := l.length
  let lo : Nat := (if a < 0 then max 0 (a + n) else min a n).toNat
  let hi : Nat := (if b < 0 then max 0 (b + n) else min b n).toNat
  (l.take hi).drop lo

/-- Python `'%03d' % n`: decimal, zero-padded to width 3 including any
minus sign. -/
def padZero3 (n : Int) : String :=
  let pad (w : Nat) (s : String) : String :=
    String.mk (List.replicate (w - s.length) '0') ++ s
  if n < 0 then "-" ++ pad 2 (toString (-n)) else pad 3 (toString n)

/-- `Shader._print_error` (shader.py lines 150-179), modelled as the list
of printed lines.  `rep` stands for `repr(self)`.  The window is the
Python slice `lines[max(0, lineno-3) : min(len(lines), lineno+3)]`; a
line of the window is printed with `' %03d %s'` when its index equals
`lineno` or when it is nonempty — the same format string in both branches
(lines 171-176); an ellipsis line brackets the window when it is clamped
(lines 169-170 and 177-178), and a blank line is printed before and after
the window. -/
def print_error (rep error : String) (lineno : Int) (code : String) : List String :=
  let lines := splitLines code.toList
  let start : Int := max 0 (lineno - 3)
  let stop : Int := min (lines.length : Int) (lineno + 3)
  let window := pySlice lines start stop
  ["Error in " ++ rep, " -> " ++ error, ""]
    ++ (if 0 < start then [" ..."] else [])
    ++ window.enum.filterMap (fun p =>
        if (p.1 : Int) + start = lineno then
          some (" " ++ padZero3 ((p.1 : Int) + start) ++ " " ++ String.mk p.2)
        else if p.2 ≠ [] then
          some (" " ++ padZero3 ((p.1 : Int) + start) ++ " " ++ String.mk p.2)
        else none)
    ++ (if stop < (lines.length : Int) then [" ..."] else [])
    ++ [""]

/-- The mutable fields of a `Shader` instance (shader.py lines 55-57 and
the `_handle` / `_need_update` fields inherited from `GLObject`).
`target` is the GL enum value passed at construction, kept opaque. -/
structure ShaderState where
  target : Nat
  code : Option String
  source : Option String
  handle : Int
  needUpdate : Bool
deriving DecidableEq, Repr

/-- The `uniforms` property as a state transformer: it computes the list
from the current source text and performs no assignment to `self`.  A
shader whose code was never set has `code = none` (Python `None`). -/
def uniformsProp (s : ShaderState) :
    Option (Except PyError (List (String × GType))) × ShaderState :=
  (s.code.map uniformsFrom, s)

/-- The `attributes` property as a state transformer. -/
def attributesProp (s : ShaderState) :
    Option (Except PyError (List (String × GType))) × ShaderState :=
  (s.code.map attributesFrom, s)

/-- The calls made to the external graphics API by `Shader._create`. -/
inductive GLCall where
  | glCreateShader
  | glShaderSource
  | glCompileShader
  | glGetShaderiv
  | glGetShaderInfoLog
deriving DecidableEq, Repr

/-- The responses of the external graphics API during one `_create` run:
the handle `glCreateShader` would return, the status `glGetShaderiv`
would report, and the log `glGetShaderInfoLog` would return. -/
structure GLOracle where
  newHandle : Int
  compileStatus : Bool
  infoLog : String

/-- `Shader._create` (shader.py lines 87-112): empty or missing code
raises `RuntimeError('No code has been given')` before anything else; a
non-positive handle is (re)allocated and a still non-positive one raises;
otherwise the source is submitted and compiled, and a failed status
fetches the log, parses it (which may itself raise `ValueError`) and
raises `RuntimeError('Shader compilation error')`.  Returns the outcome,
the final state and the trace of graphics-API calls. -/
def shaderCreate (g : GLOracle) (s : ShaderState) :
    Except PyError Unit × ShaderState × List GLCall :=
  match s.code with
  | none => (.error (.runtimeError "No code has been given"), s, [])
  | some c =>
    if c = "" then (.error (.runtimeError "No code has been given"), s, [])
    else
      let s1 := if s.handle ≤ 0 then { s with handle := g.newHandle } else s
      let calls1 := if s.handle ≤ 0 then [GLCall.glCreateShader] else []
      if s1.handle ≤ 0 then
        (.error (.runtimeError "Cannot create shader object"), s1, calls1)
      else
        let calls2 := calls1 ++ [GLCall.glShaderSource, GLCall.glCompileShader, GLCall.glGetShaderiv]
        if g.compileStatus then (.ok (), s1, calls2)
        else
          match parse_error g.infoLog with
          | .error e => (.error e, s1, calls2 ++ [GLCall.glGetShaderInfoLog])
          | .ok _ => (.error (.runtimeError "Shader compilation error"), s1, calls2 ++ [GLCall.glGetShaderInfoLog])

/-- True when the two characters star-slash (the block-comment
terminator) occur consecutively somewhere in the list. -/
def hasStarSlash : List Char → Bool
  | [] => false
  | c :: rest => (c = '*' && rest.head? = some '/') || hasStarSlash rest
















theorem length_dropWhile_le (p : Char → Bool) (l : List Char) :
    (l.dropWhile p).length ≤ l.length := by
  induction l with
  | nil => simp
  | cons c rest ih =>
    rw [List.dropWhile_cons]
    by_cases h : p c = true
    · simp only [h, if_true]
      exact Nat.le_trans ih (Nat.le_succ _)
    · simp [h]

theorem findClose_length (q : Char) :
    ∀ (l pre post : List Char), findClose q l = some (pre, post) → post.length < l.length := by
  intro l
  induction l with
  | nil => intro pre post h; simp [findClose] at h
  | cons c rest ih =>
    intro pre post h
    rw [findClose] at h
    by_cases hc : c = q
    · rw [if_pos hc] at h
      simp only [Option.some.injEq, Prod.mk.injEq] at h
      obtain ⟨h1, h2⟩ := h
      subst h2
      simp
    · rw [if_neg hc] at h
      cases hfc : findClose q rest with
      | none => rw [hfc] at h; exact absurd h (by simp)
      | some pr =>
        obtain ⟨a, b⟩ := pr
        rw [hfc] at h
        simp only [Option.some.injEq, Prod.mk.injEq] at h
        obtain ⟨h1, h2⟩ := h
        subst h2
        have := ih a b hfc
        simp
        omega

theorem findBlockEnd_length :
    ∀ (l pre post : List Char), findBlockEnd l = some (pre, post) → post.length < l.length := by
  intro l
  induction l with
  | nil => intro pre post h; simp [findBlockEnd] at h
  | cons c rest ih =>
    intro pre post h
    rw [findBlockEnd] at h
    by_cases hc : (c = '*' && rest.head? = some '/') = true
    · rw [if_pos hc] at h
      simp only [Option.some.injEq, Prod.mk.injEq] at h
      obtain ⟨h1, h2⟩ := h
      subst h2
      cases rest with
      | nil => simp at hc
      | cons d r => simp; omega
    · rw [if_neg hc] at h
      cases hfc : findBlockEnd rest with
      | none => rw [hfc] at h; exact absurd h (by simp)
      | some pr =>
        obtain ⟨a, b⟩ := pr
        rw [hfc] at h
        simp only [Option.some.injEq, Prod.mk.injEq] at h
        obtain ⟨h1, h2⟩ := h
        subst h2
        have := ih a b hfc
        simp
        omega

theorem stripGo_quote_step (f : Nat) (q : Char) (hq : q = '"' ∨ q = '\'') (rest : List Char) :
    stripGo (f + 1) (q :: rest) =
      match findClose q rest with
      | some (lit, rest') => q :: (lit ++ q :: stripGo f rest')
      | none => q :: stripGo f rest := by
  rcases hq with h | h <;> subst h <;> rfl

theorem stripGo_slash_block_step (f : Nat) (rest : List Char) (h : rest.head? = some '*') :
    stripGo (f + 1) ('/' :: rest) =
      match findBlockEnd rest.tail with
      | some (_pre, rest') => stripGo f rest'
      | none => '/' :: stripGo f rest := by
  simp [stripGo, h]

theorem stripGo_slash_line_step (f : Nat) (rest : List Char)
    (_h1 : rest.head? ≠ some '*') (h2 : rest.head? = some '/') :
    stripGo (f + 1) ('/' :: rest) =
      (if (rest.tail.dropWhile isLineChar) = [] ∨ (rest.tail.dropWhile isLineChar).head? = some '\n'
       then stripGo f (rest.tail.dropWhile isLineChar)
       else '/' :: stripGo f rest) := by
  simp [stripGo, h2]

theorem stripGo_slash_other_step (f : Nat) (rest : List Char)
    (h1 : rest.head? ≠ some '*') (h2 : rest.head? ≠ some '/') :
    stripGo (f + 1) ('/' :: rest) = '/' :: stripGo f rest := by
  simp [stripGo, h1, h2]

theorem stripGo_plain_step (f : Nat) (c : Char) (rest : List Char)
    (h1 : c ≠ '"') (h2 : c ≠ '\'') (h3 : c ≠ '/') :
    stripGo (f + 1) (c :: rest) = c :: stripGo f rest := by
  simp [stripGo, h1, h2, h3]

theorem stripGo_congr :
    ∀ (n : Nat) (l : List Char) (f₁ f₂ : Nat),
      l.length ≤ n → l.length < f₁ → l.length < f₂ → stripGo f₁ l = stripGo f₂ l := by
  intro n
  induction n with
  | zero =>
    intro l f₁ f₂ hn h1 h2
    have hl : l = [] := List.eq_nil_of_length_eq_zero (Nat.le_zero.mp hn)
    subst hl
    cases f₁ with
    | zero => omega
    | succ a =>
      cases f₂ with
      | zero => omega
      | succ b => rfl
  | succ n ih =>
    intro l f₁ f₂ hn h1 h2
    cases l with
    | nil =>
      cases f₁ with
      | zero => omega
      | succ a =>
        cases f₂ with
        | zero => omega
        | succ b => rfl
    | cons c rest =>
      cases f₁ with
      | zero => simp at h1
      | succ a =>
        cases f₂ with
        | zero => simp at h2
        | succ b =>
          have hr : rest.length ≤ n := by simp at hn; omega
          have ha : rest.length < a := by simp at h1; omega
          have hb : rest.length < b := by simp at h2; omega
          by_cases hcq : c = '"' ∨ c = '\''
          · rw [stripGo_quote_step a c hcq rest, stripGo_quote_step b c hcq rest]
            cases hfc : findClose c rest with
            | some pr =>
              obtain ⟨lit, rest'⟩ := pr
              have hlen := findClose_length c rest lit rest' hfc
              dsimp only
              rw [ih rest' a b (by omega) (by omega) (by omega)]
            | none => dsimp only; rw [ih rest a b hr ha hb]
          · push_neg at hcq
            obtain ⟨hq1, hq2⟩ := hcq
            by_cases hc3 : c = '/'
            · subst hc3
              by_cases hstar : rest.head? = some '*'
              · rw [stripGo_slash_block_step a rest hstar, stripGo_slash_block_step b rest hstar]
                cases hfb : findBlockEnd rest.tail with
                | some pr =>
                  obtain ⟨pre, rest'⟩ := pr
                  have hlen := findBlockEnd_length rest.tail pre rest' hfb
                  have htl : rest.tail.length ≤ rest.length := by
                    rw [List.length_tail]; omega
                  dsimp only
                  rw [ih rest' a b (by omega) (by omega) (by omega)]
                | none => dsimp only; rw [ih rest a b hr ha hb]
              · by_cases hsl : rest.head? = some '/'
                · rw [stripGo_slash_line_step a rest hstar hsl,
                      stripGo_slash_line_step b rest hstar hsl]
                  have hdl : (rest.tail.dropWhile isLineChar).length ≤ rest.length := by
                    have := length_dropWhile_le isLineChar rest.tail
                    rw [List.length_tail] at this
                    omega
                  by_cases hcond : (rest.tail.dropWhile isLineChar) = [] ∨
                      (rest.tail.dropWhile isLineChar).head? = some '\n'
                  · rw [if_pos hcond, if_pos hcond,
                        ih (rest.tail.dropWhile isLineChar) a b (by omega) (by omega) (by omega)]
                  · rw [if_neg hcond, if_neg hcond, ih rest a b hr ha hb]
                · rw [stripGo_slash_other_step a rest hstar hsl,
                      stripGo_slash_other_step b rest hstar hsl, ih rest a b hr ha hb]
            · rw [stripGo_plain_step a c rest hq1 hq2 hc3,
                  stripGo_plain_step b c rest hq1 hq2 hc3, ih rest a b hr ha hb]

theorem findClose_append (q : Char) :
    ∀ (lit rest : List Char), q ∉ lit → findClose q (lit ++ q :: rest) = some (lit, rest) := by
  intro lit
  induction lit with
  | nil => intro rest h; simp [findClose]
  | cons c lit' ih =>
    intro rest h
    have hc : c ≠ q := by
      intro he
      exact h (by simp [he])
    have h' : q ∉ lit' := by
      intro hm
      exact h (List.mem_cons_of_mem c hm)
    rw [List.cons_append, findClose, if_neg hc, ih rest h']

theorem findBlockEnd_append :
    ∀ (seg rest : List Char), hasStarSlash seg = false →
      findBlockEnd (seg ++ '*' :: '/' :: rest) = some (seg, rest) := by
  intro seg
  induction seg with
  | nil => intro rest h; simp [findBlockEnd]
  | cons c seg' ih =>
    intro rest h
    rw [hasStarSlash, Bool.or_eq_false_iff] at h
    obtain ⟨h1, h2⟩ := h
    rw [List.cons_append, findBlockEnd]
    have hcond : (c = '*' && (seg' ++ '*' :: '/' :: rest).head? = some '/') = false := by
      cases seg' with
      | nil => simp
      | cons d seg'' =>
        simp only [List.cons_append, List.head?_cons]
        simp only [List.head?_cons] at h1
        exact h1
    rw [hcond]
    simp only [Bool.false_eq_true, if_false]
    rw [ih rest h2]

theorem dropWhile_append_all (p : Char → Bool) :
    ∀ (l₁ l₂ : List Char), (∀ c ∈ l₁, p c = true) →
      List.dropWhile p (l₁ ++ l₂) = List.dropWhile p l₂ := by
  intro l₁
  induction l₁ with
  | nil => intro l₂ h; simp
  | cons c l' ih =>
    intro l₂ h
    rw [List.cons_append, List.dropWhile_cons, if_pos (h c (by simp))]
    exact ih l₂ (fun d hd => h d (by simp [hd]))

/-- A character that opens no quoted string and no comment passes through
`_remove_comments` unchanged. -/
theorem stripCommentsL_plain (c : Char) (rest : List Char)
    (h1 : c ≠ '"') (h2 : c ≠ '\'') (h3 : c ≠ '/') :
    stripCommentsL (c :: rest) = c :: stripCommentsL rest := by
  unfold stripCommentsL
  rw [List.length_cons, stripGo_plain_step (rest.length + 1) c rest h1 h2 h3]

/-- A terminated quoted literal (its quote character being `"` or `'`) is
kept verbatim by `_remove_comments`, and scanning resumes after it. -/
theorem stripCommentsL_quote (q : Char) (hq : q = '"' ∨ q = '\'') (lit rest : List Char)
    (h : q ∉ lit) :
    stripCommentsL (q :: (lit ++ q :: rest)) = q :: (lit ++ q :: stripCommentsL rest) := by
  unfold stripCommentsL
  rw [List.length_cons, stripGo_quote_step ((lit ++ q :: rest).length + 1) q hq,
      findClose_append q lit rest h]
  dsimp only
  rw [stripGo_congr (rest.length) rest ((lit ++ q :: rest).length + 1)
        (rest.length + 1) (Nat.le_refl _) (by simp; omega) (by omega)]

/-- A `//` line comment whose body reaches a newline is removed up to and
excluding that newline. -/
theorem stripCommentsL_line (seg rest : List Char) (h : ∀ c ∈ seg, isLineChar c = true) :
    stripCommentsL ('/' :: '/' :: (seg ++ '\n' :: rest)) = '\n' :: stripCommentsL rest := by
  have hdw : ('/' :: (seg ++ '\n' :: rest)).tail.dropWhile isLineChar = '\n' :: rest := by
    rw [List.tail_cons, dropWhile_append_all isLineChar seg ('\n' :: rest) h,
        List.dropWhile_cons]
    simp [isLineChar]
  have stepA : ∀ f : Nat, stripGo (f + 1) ('/' :: '/' :: (seg ++ '\n' :: rest)) =
      stripGo f ('\n' :: rest) := by
    intro f
    rw [stripGo_slash_line_step f ('/' :: (seg ++ '\n' :: rest)) (by simp) (by simp), hdw]
    simp
  have stepB : ∀ f : Nat, stripGo (f + 1) ('\n' :: rest) = '\n' :: stripGo f rest := by
    intro f
    exact stripGo_plain_step f '\n' rest (by decide) (by decide) (by decide)
  unfold stripCommentsL
  have hL : ('/' :: '/' :: (seg ++ '\n' :: rest)).length + 1 =
      ((seg.length + rest.length + 2) + 1) + 1 := by simp; omega
  rw [hL, stepA ((seg.length + rest.length + 2) + 1), stepB (seg.length + rest.length + 2),
      stripGo_congr (rest.length) rest (seg.length + rest.length + 2) (rest.length + 1)
        (Nat.le_refl _) (by omega) (by omega)]

/-- A terminated block comment is removed entirely — its body, interior
newlines included, leaves no trace — and scanning resumes after the
terminator. -/
theorem stripCommentsL_block (seg rest : List Char) (h : hasStarSlash seg = false) :
    stripCommentsL ('/' :: '*' :: (seg ++ '*' :: '/' :: rest)) = stripCommentsL rest := by
  have stepA : ∀ f : Nat, stripGo (f + 1) ('/' :: '*' :: (seg ++ '*' :: '/' :: rest)) =
      stripGo f rest := by
    intro f
    rw [stripGo_slash_block_step f ('*' :: (seg ++ '*' :: '/' :: rest)) (by simp),
        List.tail_cons, findBlockEnd_append seg rest h]
  unfold stripCommentsL
  have hL : ('/' :: '*' :: (seg ++ '*' :: '/' :: rest)).length + 1 =
      (seg.length + rest.length + 4) + 1 := by simp; omega
  rw [hL, stepA (seg.length + rest.length + 4),
      stripGo_congr (rest.length) rest (seg.length + rest.length + 4) (rest.length + 1)
        (Nat.le_refl _) (by omega) (by omega)]

theorem lookup_mem_keys :
    ∀ (l : List (String × GType)) (s : String) (t : GType),
      List.lookup s l = some t → s ∈ l.map Prod.fst := by
  intro l
  induction l with
  | nil => intro s t h; simp [List.lookup] at h
  | cons p l' ih =>
    intro s t h
    obtain ⟨k, v⟩ := p
    rw [List.lookup] at h
    by_cases hk : s = k
    · simp [hk]
    · have hb : (s == k) = false := beq_eq_false_iff_ne.mpr hk
      rw [hb] at h
      simp only [List.map_cons, List.mem_cons]
      exact Or.inr (ih s t h)

theorem expandArray_length (name : String) (g : GType) (size : Nat) :
    (expandArray name g size).length = size := by
  simp [expandArray]

theorem expandArray_getElem (name : String) (g : GType) (size i : Nat) (h : i < size) :
    (expandArray name g size)[i]? = some (name ++ "[" ++ toString i ++ "]", g) := by
  simp [expandArray, List.getElem?_map, List.getElem?_range, h]

/-- C1: the uniforms/attributes extraction emits, for a declaration
`qualifier T a;`, the single entry `(a, T)`; for `T a, b;` the entries in
left-to-right name order, each with type `T`; and for an array
declaration `T a[N]` with `N ≥ 1`, exactly `N` entries named
`a[0]..a[N-1]`, each with type `T`, in strictly ascending index order,
accumulated in source-appearance order and unaffected by whitespace
variations around the brackets.  Concrete instances cover the three
declaration shapes and the whitespace variants; the final conjunct proves
the ascending-index expansion for every `N ≥ 1`. -/
theorem uniforms_declaration_extraction :
    uniformsFrom "uniform float a;" = .ok [("a", .GL_FLOAT)]
    ∧ uniformsFrom "uniform vec2 a, b;" = .ok [("a", .GL_FLOAT_VEC2), ("b", .GL_FLOAT_VEC2)]
    ∧ uniformsFrom "uniform float a[3];" =
        .ok [("a[0]", .GL_FLOAT), ("a[1]", .GL_FLOAT), ("a[2]", .GL_FLOAT)]
    ∧ uniformsFrom "uniform float a [3];" = uniformsFrom "uniform float a[3];"
    ∧ uniformsFrom "uniform float a[3] ;" = uniformsFrom "uniform float a[3];"
    ∧ attributesFrom "attribute float a;" = .ok [("a", .GL_FLOAT)]
    ∧ ∀ (name : String) (g : GType) (N : Nat), 1 ≤ N →
        (expandArray name g N).length = N ∧
        ∀ i : Nat, i < N → (expandArray name g N)[i]? =
          some (name ++ "[" ++ toString i ++ "]", g) := by
  refine ⟨by rfl, by rfl, by rfl, by rfl, by rfl, by rfl, ?_⟩
  intro name g N hN
  exact ⟨expandArray_length name g N, fun i hi => expandArray_getElem name g N i hi⟩

theorem uniforms_declaration_extraction_witness :
    (expandArray "a" GType.GL_FLOAT 3).length = 3 ∧
    (expandArray "a" GType.GL_FLOAT 3)[1]? = some ("a[1]", GType.GL_FLOAT) := by
  have h := uniforms_declaration_extraction.2.2.2.2.2.2 "a" GType.GL_FLOAT 3 (by decide)
  exact ⟨h.1, h.2 1 (by decide)⟩

/-- C2: the comment stripper removes C-style comments while leaving
quoted string literals untouched: stripping `a // b\nc` yields `a \nc`,
stripping `/* x */y` yields `y`, the literal `"http://x"` is preserved
unchanged, and — generically — any terminated single- or double-quoted
literal, whatever it contains (`//`, `/*`, ...), is copied verbatim. -/
theorem strip_preserves_string_literals :
    remove_comments "a // b\nc" = "a \nc"
    ∧ remove_comments "/* x */y" = "y"
    ∧ remove_comments "\"http://x\"" = "\"http://x\""
    ∧ (∀ lit rest, '"' ∉ lit →
        stripCommentsL ('"' :: (lit ++ '"' :: rest)) = '"' :: (lit ++ '"' :: stripCommentsL rest))
    ∧ (∀ lit rest, '\'' ∉ lit →
        stripCommentsL ('\'' :: (lit ++ '\'' :: rest)) =
          '\'' :: (lit ++ '\'' :: stripCommentsL rest)) :=
  ⟨by rfl, by rfl, by rfl,
   fun lit rest h => stripCommentsL_quote '"' (Or.inl rfl) lit rest h,
   fun lit rest h => stripCommentsL_quote '\'' (Or.inr rfl) lit rest h⟩

theorem strip_preserves_string_literals_witness :
    stripCommentsL ('"' :: ("http://x".toList ++ '"' :: [])) =
      '"' :: ("http://x".toList ++ '"' :: stripCommentsL []) :=
  strip_preserves_string_literals.2.2.2.1 "http://x".toList [] (by decide)

/-- C3 counterexample: the claim says the line number of each non-comment
line in the stripped result equals its line number in the original, in
particular for sources containing multi-line block comments.  It is false:
a block comment is deleted together with its interior newlines, so in
`a\n/* b\nc */d` the character `d` sits on line 2 (zero-based) of the
original but on line 1 of the stripped result. -/
theorem strip_shifts_lines_counterexample :
    remove_comments "a\n/* b\nc */d" = "a\nd"
    ∧ (splitLines "a\n/* b\nc */d".toList).length = 3
    ∧ (splitLines "a\n/* b\nc */d".toList)[2]? = some "c */d".toList
    ∧ (splitLines (remove_comments "a\n/* b\nc */d").toList).length = 2
    ∧ (splitLines (remove_comments "a\n/* b\nc */d").toList)[1]? = some ['d'] :=
  ⟨by rfl, by rfl, by rfl, by rfl, by rfl⟩

/-- C3 amended: every character outside a comment — newlines included —
appears unchanged and in order in the stripped output: ordinary
characters pass through, a `//` comment is removed up to but excluding
its newline (preserving line structure), and a quoted literal is kept
verbatim, interior newlines included.  A `/* ... */` block comment,
however, is removed entirely, interior newlines included, so line numbers
of text after a multi-line block comment shift up by the number of
newlines inside it; line numbers are preserved only in sources whose
block comments are single-line. -/
theorem strip_preserves_noncomment_text :
    (∀ c rest, c ≠ '"' → c ≠ '\'' → c ≠ '/' →
      stripCommentsL (c :: rest) = c :: stripCommentsL rest)
    ∧ (∀ seg rest, (∀ c ∈ seg, isLineChar c = true) →
        stripCommentsL ('/' :: '/' :: (seg ++ '\n' :: rest)) = '\n' :: stripCommentsL rest)
    ∧ (∀ seg rest, hasStarSlash seg = false →
        stripCommentsL ('/' :: '*' :: (seg ++ '*' :: '/' :: rest)) = stripCommentsL rest)
    ∧ (∀ lit rest, '"' ∉ lit →
        stripCommentsL ('"' :: (lit ++ '"' :: rest)) =
          '"' :: (lit ++ '"' :: stripCommentsL rest)) :=
  ⟨stripCommentsL_plain, stripCommentsL_line, stripCommentsL_block,
   fun lit rest h => stripCommentsL_quote '"' (Or.inl rfl) lit rest h⟩

theorem strip_preserves_noncomment_text_witness :
    stripCommentsL ('x' :: []) = 'x' :: stripCommentsL [] :=
  strip_preserves_noncomment_text.1 'x' [] (by decide) (by decide) (by decide)

/-- C4: driver diagnostic parsing tries exactly the three vendor formats
in order — `N(L): message`, `ERROR: S:L: message`, `S:L(C): message` —
with the first match winning, returns the documented line number `L` and
the trailing message, and raises (`ValueError`, the spec's
`UnrecognizedDiagnosticFormatError`) on every string matching none of
the three. -/
theorem parse_error_formats :
    parse_error "0(7): error C1008: undefined variable MV" =
      .ok (7, "error C1008: undefined variable MV")
    ∧ parse_error "ERROR: 0:131: syntax error parse error" =
      .ok (131, "syntax error parse error")
    ∧ parse_error "0:28(16): error: syntax error, unexpected RPAREN" =
      .ok (28, "error: syntax error, unexpected RPAREN")
    ∧ parse_error "Compilation failed" = .error (.valueError "Unknown GLSL error format")
    ∧ (∀ s r, matchNvidia s.toList = some r → parse_error s = .ok r)
    ∧ (∀ s r, matchNvidia s.toList = none → matchATI s.toList = some r → parse_error s = .ok r)
    ∧ (∀ s r, matchNvidia s.toList = none → matchATI s.toList = none →
        matchNouveau s.toList = some r → parse_error s = .ok r)
    ∧ (∀ s, matchNvidia s.toList = none → matchATI s.toList = none →
        matchNouveau s.toList = none →
        parse_error s = .error (.valueError "Unknown GLSL error format")) := by
  refine ⟨by rfl, by rfl, by rfl, by rfl, ?_, ?_, ?_, ?_⟩
  · intro s r h; unfold parse_error; rw [h]
  · intro s r h1 h2; unfold parse_error; rw [h1, h2]
  · intro s r h1 h2 h3; unfold parse_error; rw [h1, h2, h3]
  · intro s h1 h2 h3; unfold parse_error; rw [h1, h2, h3]

theorem parse_error_formats_witness : parse_error "1(2): boom" = .ok (2, "boom") :=
  parse_error_formats.2.2.2.2.1 "1(2): boom" (2, "boom") (by rfl)

/-- C5: a zero-size array declaration raises (`RuntimeError`, the spec's
`InvalidArraySizeError`) instead of expanding to nothing, for the
uniforms extraction and the attributes extraction alike, and in both
cases the message reads `Size of uniform array cannot be zero` (the
attributes body, shader.py line 270, repeats the uniform wording).  The
final conjunct shows the size-0 path of the shared per-name processing
step aborts with that message for every name and type. -/
theorem zero_size_array_error :
    uniformsFrom "uniform float a[0];" =
      .error (.runtimeError "Size of uniform array cannot be zero")
    ∧ attributesFrom "attribute float a[0];" =
      .error (.runtimeError "Size of uniform array cannot be zero")
    ∧ (∀ (g : GType) (acc : List (String × GType)) (nm ds : List Char),
        natOfDigits ds = 0 →
        processName g acc (nm, some ds) =
          .error (.runtimeError "Size of uniform array cannot be zero")) := by
  refine ⟨by rfl, by rfl, ?_⟩
  intro g acc nm ds h
  simp [processName, h]

theorem zero_size_array_error_witness :
    processName GType.GL_FLOAT [] ("a".toList, some "0".toList) =
      .error (.runtimeError "Size of uniform array cannot be zero") :=
  zero_size_array_error.2.2 GType.GL_FLOAT [] "a".toList "0".toList (by rfl)

/-- C6: a declaration whose type token lies outside the closed type
enumeration raises (`KeyError` from the `_gtypes` lookup, the spec's
`UnknownTypeError`) and discards any entries already gathered
(all-or-nothing).  The third conjunct pins the enumeration to exactly the
seventeen documented names, and the fourth shows every successful lookup
key belongs to it. -/
theorem unknown_type_error :
    uniformsFrom "uniform float a;\nuniform foo b;" = .error (.keyError "foo")
    ∧ attributesFrom "attribute foo a;" = .error (.keyError "foo")
    ∧ gtypesList.map Prod.fst =
        ["float", "vec2", "vec3", "vec4", "int", "ivec2", "ivec3", "ivec4",
         "bool", "bvec2", "bvec3", "bvec4", "mat2", "mat3", "mat4",
         "sampler1D", "sampler2D"]
    ∧ (∀ s t, List.lookup s gtypesList = some t → s ∈ gtypesList.map Prod.fst) :=
  ⟨by rfl, by rfl, by rfl, fun s t h => lookup_mem_keys gtypesList s t h⟩

theorem unknown_type_error_witness : "float" ∈ gtypesList.map Prod.fst :=
  unknown_type_error.2.2.2 "float" GType.GL_FLOAT (by rfl)

/-- C7 counterexample: the claim promises up to 3 context lines after the
offending line and an offending line visually distinguished from the
others.  On a ten-line source with offending line 4 (no clamping), the
window is the Python slice `lines[1:7]`, so line 7 — which three-after
would include — is never rendered; and line 4 is rendered as ` 004 L4`
both when it is the offending line and when it is an ordinary context
line of the window around line 5, i.e. with no distinguishing mark. -/
theorem print_error_window_counterexample :
    (¬ (" 007 L7" ∈ print_error "R" "m" 4 "L0\nL1\nL2\nL3\nL4\nL5\nL6\nL7\nL8\nL9"))
    ∧ " 004 L4" ∈ print_error "R" "m" 4 "L0\nL1\nL2\nL3\nL4\nL5\nL6\nL7\nL8\nL9"
    ∧ " 004 L4" ∈ print_error "R" "m" 5 "L0\nL1\nL2\nL3\nL4\nL5\nL6\nL7\nL8\nL9" := by
  refine ⟨by decide, by decide, by decide⟩

/-- C7 amended: the error display renders the window
`lines[max(0,lineno-3) : min(len,lineno+3)]` — up to 3 lines before but
only up to 2 lines after the offending line — clamped to the source
bounds; every rendered line is prefixed with its zero-padded line number
in one and the same format, so the offending line is not visually
distinguished; an empty line is rendered only when it is the offending
line; and an ellipsis marker appears exactly when the window is clamped
away from the true start (respectively true end) of the source.  The
four instances exercise: an interior window with both ellipses, clamping
at the start, clamping at the end, and empty-line handling. -/
theorem print_error_window :
    print_error "R" "m" 4 "L0\nL1\nL2\nL3\nL4\nL5\nL6\nL7\nL8\nL9" =
      ["Error in R", " -> m", "", " ...", " 001 L1", " 002 L2", " 003 L3",
       " 004 L4", " 005 L5", " 006 L6", " ...", ""]
    ∧ print_error "R" "m" 0 "L0\nL1\nL2\nL3\nL4\nL5\nL6\nL7\nL8\nL9" =
      ["Error in R", " -> m", "", " 000 L0", " 001 L1", " 002 L2", " ...", ""]
    ∧ print_error "R" "m" 9 "L0\nL1\nL2\nL3\nL4\nL5\nL6\nL7\nL8\nL9" =
      ["Error in R", " -> m", "", " ...", " 006 L6", " 007 L7", " 008 L8", " 009 L9", ""]
    ∧ print_error "R" "m" 1 "A\n\nC\n\nE" =
      ["Error in R", " -> m", "", " 000 A", " 001 ", " 002 C", " ...", ""] :=
  ⟨by rfl, by rfl, by rfl, by rfl⟩

/-- C8: the `uniforms` and `attributes` properties leave the shader state
— in particular the stored source text — unchanged, and computing a
property twice on an unchanged state yields the same list, there being no
cache to go stale; a concrete instance computes both properties of a
two-declaration shader and returns the state intact. -/
theorem declarations_recomputed :
    (∀ s : ShaderState,
      (uniformsProp s).2 = s ∧ (attributesProp s).2 = s
      ∧ (uniformsProp ((uniformsProp s).2)).1 = (uniformsProp s).1
      ∧ (attributesProp ((attributesProp s).2)).1 = (attributesProp s).1)
    ∧ uniformsProp ⟨0, some "uniform float a;\nattribute vec2 p;", some "<string>", 0, true⟩ =
        (some (.ok [("a", .GL_FLOAT)]),
         ⟨0, some "uniform float a;\nattribute vec2 p;", some "<string>", 0, true⟩)
    ∧ attributesProp ⟨0, some "uniform float a;\nattribute vec2 p;", some "<string>", 0, true⟩ =
        (some (.ok [("p", .GL_FLOAT_VEC2)]),
         ⟨0, some "uniform float a;\nattribute vec2 p;", some "<string>", 0, true⟩) :=
  ⟨fun _ => ⟨rfl, rfl, rfl, rfl⟩, by rfl, by rfl⟩

theorem declarations_recomputed_witness :
    (uniformsProp ⟨0, none, none, 0, false⟩).2 = ⟨0, none, none, 0, false⟩ :=
  (declarations_recomputed.1 ⟨0, none, none, 0, false⟩).1

/-- C9: `_create` on a shader whose code is missing or empty raises
(`RuntimeError('No code has been given')`, the spec's `NoSourceError`)
before any call to the external graphics API — the call trace is empty —
and leaves the shader state unchanged. -/
theorem compile_requires_source :
    ∀ (g : GLOracle) (s : ShaderState), s.code = none ∨ s.code = some "" →
      shaderCreate g s = (.error (.runtimeError "No code has been given"), s, []) := by
  intro g s h
  rcases h with h | h <;> simp [shaderCreate, h]

theorem compile_requires_source_witness :
    shaderCreate ⟨1, true, ""⟩ ⟨0, none, none, 0, false⟩ =
      (.error (.runtimeError "No code has been given"), ⟨0, none, none, 0, false⟩, []) :=
  compile_requires_source ⟨1, true, ""⟩ ⟨0, none, none, 0, false⟩ (Or.inl rfl)

/-- C10: the declaration pattern starts with `\s*`, which also matches
the empty string in the middle of an identifier, so a source whose only
occurrence of the qualifier keyword is the suffix of a longer identifier
still produces a declaration entry: `myuniform float x;` yields
`(x, float)`, and likewise `myattribute float x;` for attributes. -/
theorem qualifier_matches_inside_identifier :
    uniformsFrom "myuniform float x;" = .ok [("x", .GL_FLOAT)]
    ∧ attributesFrom "myattribute float x;" = .ok [("x", .GL_FLOAT)] :=
  ⟨by rfl, by rfl⟩

end Glumpy
